/-
  Verification of the temporal feature-window and labeling engine of the
  Crash-Inequality-Chicago repository.

  Shallow embedding of `scripts/build_temporal_features.py` (window
  aggregation, cutoff schedule, per-cutoff feature build, label
  assignment, static merge) and of `scripts/check_temporal_leakage.py`
  (the temporal-integrity checker).

  Modelling conventions:
  * timestamps (`pd.Timestamp`) are rationals; `timedelta(days=n)` is the
    rational `n` (one day = 1);
  * intersection ids are naturals; severity / injury classifications are
    strings;
  * a pandas DataFrame keyed by `intersection_id` is `DF`: a column-name
    list plus rows of (key, cells), a cell being `Option ℚ` (`none` = NaN);
  * machine floats are modelled exactly by ℚ (all quantities here are
    small integers, day counts and quantiles of integers).
-/
import Mathlib

namespace CrashTemporal

/-- One crash record after `load_crashes` (lines 39-49): `crash_record_id`,
`intersection_id`, parsed `crash_dt` and `most_severe_injury`.  Rows with a
null intersection or unparsable date are dropped at load, so every embedded
record has all fields. -/
structure Crash where
  rid : ℕ
  iid : ℕ
  t : ℚ
  sev : String
deriving DecidableEq, Repr

/-- One person/injury record after `load_people` (lines 52-61). -/
structure Person where
  iid : ℕ
  t : ℚ
  cls : String
deriving DecidableEq, Repr

/-- `SEVERITY_WEIGHTS` (lines 26-32). -/
def SEVERITY_WEIGHTS : List (String × ℚ) :=
  [("FATAL", 5), ("INCAPACITATING INJURY", 4), ("NONINCAPACITATING INJURY", 3),
   ("REPORTED, NOT EVIDENT", 2), ("NO INDICATION OF INJURY", 1)]

/-- `crashes["severity_wt"] = crashes["most_severe_injury"].map(SEVERITY_WEIGHTS).fillna(1)`
(line 48). -/
def severityWt (s : String) : ℚ := (SEVERITY_WEIGHTS.lookup s).getD 1

def HISTORY_DAYS : ℚ := 365
def RECENT_DAYS : ℚ := 90
def PREDICT_DAYS : ℚ := 180
def HOTSPOT_TOP_PCT : ℚ := 1 / 10

/-- The window-selection mask of `aggregate_crashes` / `aggregate_injuries` /
`aggregate_window`: `(dt >= start) & (dt < end)` followed by `.loc[mask]`
(lines 66-67, 81-82 of build_temporal_features.py and 68-69 of
build_features.py). -/
def windowSub (crashes : List Crash) (s e : ℚ) : List Crash :=
  crashes.filter (fun r => decide (s ≤ r.t ∧ r.t < e))

/-- Same selection mask for the people table (lines 81-82). -/
def windowSubP (people : List Person) (s e : ℚ) : List Person :=
  people.filter (fun r => decide (s ≤ r.t ∧ r.t < e))

/-- The history-window event selection used by `build_features_for_cutoff`:
`aggregate_crashes(crashes, hist_start, cutoff_date)` with
`hist_start = cutoff_date - timedelta(days=HISTORY_DAYS)` (lines 110, 115). -/
def histSub (crashes : List Crash) (c : ℚ) : List Crash :=
  windowSub crashes (c - HISTORY_DAYS) c

/-- The recent-window event selection: `aggregate_crashes(crashes,
recent_start, cutoff_date)` with `recent_start = cutoff_date - 90 days`
(lines 111, 131). -/
def recentSub (crashes : List Crash) (c : ℚ) : List Crash :=
  windowSub crashes (c - RECENT_DAYS) c

/-- The future-window event selection: `aggregate_crashes(crashes,
cutoff_date, future_end)` with `future_end = cutoff_date + 180 days`
(lines 112, 147). -/
def futureSub (crashes : List Crash) (c : ℚ) : List Crash :=
  windowSub crashes c (c + PREDICT_DAYS)

/-- C1.  Boundary exclusivity of window selection.  The selection mask keeps
exactly the events with `start <= t < end` (inclusive start, exclusive end),
and consequently an event timestamped exactly at the cutoff is selected by
the future window of that cutoff and by neither the history nor the recent
window; no event is selected by a window whose half-open interval does not
contain its timestamp. -/
theorem window_boundary_exclusivity (crashes : List Crash) (s e c : ℚ) (r : Crash) :
    (r ∈ windowSub crashes s e ↔ r ∈ crashes ∧ (s ≤ r.t ∧ r.t < e)) ∧
    (r.t = c → r ∈ crashes →
      r ∈ futureSub crashes c ∧ r ∉ histSub crashes c ∧ r ∉ recentSub crashes c) := by
  have hmem : ∀ (s' e' : ℚ),
      r ∈ windowSub crashes s' e' ↔ r ∈ crashes ∧ (s' ≤ r.t ∧ r.t < e') := by
    intro s' e'
    simp [windowSub, List.mem_filter]
  refine ⟨hmem s e, fun ht hr => ?_⟩
  subst ht
  refine ⟨(hmem _ _).2 ⟨hr, le_refl _, by simp [PREDICT_DAYS]⟩, ?_, ?_⟩
  · intro hmemh
    exact absurd ((hmem _ _).1 hmemh).2.2 (lt_irrefl _)
  · intro hmemr
    exact absurd ((hmem _ _).1 hmemr).2.2 (lt_irrefl _)

/-- Witness for C1: a crash timestamped exactly at cutoff `5` lands in the
future window and in neither backward-looking window. -/
theorem window_boundary_exclusivity_witness :
    (⟨0, 7, 5, "FATAL"⟩ : Crash) ∈ futureSub [⟨0, 7, 5, "FATAL"⟩] 5 ∧
    (⟨0, 7, 5, "FATAL"⟩ : Crash) ∉ histSub [⟨0, 7, 5, "FATAL"⟩] 5 ∧
    (⟨0, 7, 5, "FATAL"⟩ : Crash) ∉ recentSub [⟨0, 7, 5, "FATAL"⟩] 5 :=
  (window_boundary_exclusivity [⟨0, 7, 5, "FATAL"⟩] 0 1 5 ⟨0, 7, 5, "FATAL"⟩).2
    rfl (by simp)

/-! ### A miniature pandas DataFrame keyed by `intersection_id`

`DF` models the per-intersection tables flowing through
`build_features_for_cutoff` and `main`: `cols` are the non-key column
names, each row is the key plus one `Option ℚ` cell per column
(`none` = NaN). -/

structure DF where
  cols : List String
  rows : List (ℕ × List (Option ℚ))
deriving DecidableEq, Repr

def DF.keys (df : DF) : List ℕ := df.rows.map Prod.fst

/-- First row of `df` whose key is `k` (pandas key lookup; right tables are
unique-keyed wherever this is used, matching groupby output /
`drop_duplicates`). -/
def lookupRow (df : DF) (k : ℕ) : Option (List (Option ℚ)) :=
  (df.rows.find? (fun r => r.1 = k)).map Prod.snd

/-- `aggregate_crashes` (lines 64-76): select the window, group by
`intersection_id` (pandas sorts the group keys ascending), and per group
record `crashes_count` (row count) and `severity_sum` (sum of
`severity_wt`). -/
def aggregate_crashes (crashes : List Crash) (s e : ℚ) : DF :=
  let sub := windowSub crashes s e
  let ks := List.insertionSort (· ≤ ·) (sub.map (·.iid)).dedup
  { cols := ["crashes_count", "severity_sum"],
    rows := ks.map (fun k =>
      (k, [some (((sub.filter (fun r => r.iid = k)).length : ℚ)),
           some (((sub.filter (fun r => r.iid = k)).map (fun r => severityWt r.sev)).sum)])) }

/-- `aggregate_injuries` (lines 79-100): select the window, group by
`intersection_id`, and per group record `injuries_total` (row count) and the
counts of the three named classifications. -/
def aggregate_injuries (people : List Person) (s e : ℚ) : DF :=
  let sub := windowSubP people s e
  let ks := List.insertionSort (· ≤ ·) (sub.map (·.iid)).dedup
  { cols := ["injuries_total", "injuries_fatal", "injuries_incapacitating",
             "injuries_nonincap"],
    rows := ks.map (fun k =>
      let grp := sub.filter (fun r => r.iid = k)
      (k, [some ((grp.length : ℚ)),
           some (((grp.filter (fun r => r.cls = "FATAL")).length : ℚ)),
           some (((grp.filter (fun r => r.cls = "INCAPACITATING INJURY")).length : ℚ)),
           some (((grp.filter (fun r => r.cls = "NONINCAPACITATING INJURY")).length : ℚ))])) }

/-- `df.rename(columns=m)`: rows untouched, column names mapped through the
dictionary (absent names kept). -/
def renameCols (df : DF) (m : List (String × String)) : DF :=
  { cols := df.cols.map (fun c => (m.lookup c).getD c), rows := df.rows }

/-- `a.merge(b, on="intersection_id", how="outer")`: keys are the sorted
union of both key sets (pandas sorts outer-join keys), columns are the left
columns followed by the right columns, and a side missing a key contributes
a NaN cell for each of its columns. -/
def mergeOuter (a b : DF) : DF :=
  { cols := a.cols ++ b.cols,
    rows := (List.insertionSort (· ≤ ·) (a.keys ++ b.keys).dedup).map
      (fun k => (k, (lookupRow a k).getD (List.replicate a.cols.length none)
                  ++ (lookupRow b k).getD (List.replicate b.cols.length none))) }

/-- `a.merge(b, on="intersection_id", how="left")`: one output row per left
row, in left order; the right table contributes its (first-match) cells when
the key is present and NaNs otherwise. -/
def mergeLeft (a b : DF) : DF :=
  { cols := a.cols ++ b.cols,
    rows := a.rows.map
      (fun r => (r.1, r.2 ++ ((lookupRow b r.1).getD (List.replicate b.cols.length none)))) }

/-- `df.fillna(0)` (line 157): every NaN cell becomes 0. -/
def fillna0 (df : DF) : DF :=
  { cols := df.cols, rows := df.rows.map (fun r => (r.1, r.2.map (fun v => some (v.getD 0)))) }

/-- `df[name] = v` appending a constant column (line 160
`feats["cutoff_date"] = cutoff_date`). -/
def addColumn (df : DF) (name : String) (v : ℚ) : DF :=
  { cols := df.cols ++ [name], rows := df.rows.map (fun r => (r.1, r.2 ++ [some v])) }

/-- `build_features_for_cutoff` (lines 103-162): five window aggregations
(history and recent on both tables, future on crashes only), renamed,
outer-joined in source order, NaN-filled once, then stamped with the
cutoff. -/
def build_features_for_cutoff (crashes : List Crash) (people : List Person)
    (cutoff_date : ℚ) : DF :=
  let hist_start := cutoff_date - HISTORY_DAYS
  let recent_start := cutoff_date - RECENT_DAYS
  let future_end := cutoff_date + PREDICT_DAYS
  let hist_crashes := renameCols (aggregate_crashes crashes hist_start cutoff_date)
    [("crashes_count", "hist_crashes"), ("severity_sum", "hist_severity")]
  let hist_injuries := renameCols (aggregate_injuries people hist_start cutoff_date)
    [("injuries_total", "hist_injuries_total"), ("injuries_fatal", "hist_injuries_fatal"),
     ("injuries_incapacitating", "hist_injuries_incapacitating"),
     ("injuries_nonincap", "hist_injuries_nonincap")]
  let recent_crashes := renameCols (aggregate_crashes crashes recent_start cutoff_date)
    [("crashes_count", "recent90_crashes"), ("severity_sum", "recent90_severity")]
  let recent_injuries := renameCols (aggregate_injuries people recent_start cutoff_date)
    [("injuries_total", "recent90_injuries_total"), ("injuries_fatal", "recent90_injuries_fatal"),
     ("injuries_incapacitating", "recent90_injuries_incapacitating"),
     ("injuries_nonincap", "recent90_injuries_nonincap")]
  let future_crashes := renameCols (aggregate_crashes crashes cutoff_date future_end)
    [("crashes_count", "future_crashes"), ("severity_sum", "future_severity")]
  let feats := mergeOuter (mergeOuter (mergeOuter (mergeOuter hist_crashes hist_injuries)
    recent_crashes) recent_injuries) future_crashes
  addColumn (fillna0 feats) "cutoff_date" cutoff_date

/-! ### Quantile and per-partition label assignment (`main`, lines 227-235) -/

/-- `pd.Series.quantile(q)` with the default linear interpolation: sort the
values, set `h = (n-1)*q`, and interpolate between the values at positions
`⌊h⌋` and `⌊h⌋+1`.  (pandas returns NaN on an empty series; the call sites
only evaluate it on nonempty partitions, and we return 0 there.) -/
def quantileLinear (xs : List ℚ) (q : ℚ) : ℚ :=
  let ys := List.insertionSort (· ≤ ·) xs
  if ys.length = 0 then 0
  else
    let h : ℚ := ((ys.length : ℚ) - 1) * q
    let i : ℕ := (⌊h⌋).toNat
    let lo := ys.getD i 0
    let hi := ys.getD (i + 1) lo
    lo + (h - (i : ℚ)) * (hi - lo)

/-- One row of the combined feature table as seen by the labeling loop:
only the `cutoff_date` and `future_crashes` columns are read or written
there (lines 229-235), so a snapshot is modelled by its key and those two
cells. -/
structure Snap where
  iid : ℕ
  cutoff : ℚ
  future : ℚ
deriving DecidableEq, Repr

/-- `combined["cutoff_date"].unique()` (line 230): first-appearance order of
the distinct cutoff values. -/
def uniqueCutoffs (rows : List Snap) : List ℚ :=
  (rows.map (·.cutoff)).dedup

/-- The threshold of one partition (line 232):
`combined.loc[mask, "future_crashes"].quantile(1 - HOTSPOT_TOP_PCT)` with
`mask = combined["cutoff_date"] == cutoff`. -/
def labelThreshold (rows : List Snap) (tf : ℚ) (c : ℚ) : ℚ :=
  quantileLinear ((rows.filter (fun r => r.cutoff = c)).map (·.future)) (1 - tf)

/-- The labeling loop of `main` (lines 229-235): start from
`label_hotspot = 0`, then for each distinct cutoff overwrite the labels of
that cutoff's rows with `future_crashes >= threshold`.  Output: each row
paired with its final label. -/
def assignLabels (rows : List Snap) (tf : ℚ) : List (Snap × ℕ) :=
  (uniqueCutoffs rows).foldl
    (fun acc c =>
      let thr := labelThreshold rows tf c
      acc.map (fun p =>
        if p.1.cutoff = c then (p.1, if thr ≤ p.1.future then 1 else 0) else p))
    (rows.map (fun r => (r, 0)))

/-! ### Cutoff schedule (`main`, lines 172-192) -/

/-- `pd.date_range(start, end, freq=f)` for a positive day frequency:
`start, start+f, start+2f, …`, including every point `≤ end`; empty when
`start > end`. -/
def dateRange (s e f : ℚ) : List ℚ :=
  if 0 < f ∧ s ≤ e then
    (List.range ((⌊(e - s) / f⌋).toNat + 1)).map (fun i : ℕ => s + f * (i : ℚ))
  else []

/-- `first_cutoff = min_dt + timedelta(days=HISTORY_DAYS + 90)` (line 180);
the `90` is the start margin ("need history + some data"). -/
def firstCutoff (minDt : ℚ) : ℚ := minDt + (HISTORY_DAYS + 90)

/-- `last_cutoff = max_dt - timedelta(days=PREDICT_DAYS)` (line 181). -/
def lastCutoff (maxDt : ℚ) : ℚ := maxDt - PREDICT_DAYS

/-- `cutoff_dates = pd.date_range(first_cutoff, last_cutoff, freq="180D")`
(lines 184-188). -/
def cutoffSchedule (minDt maxDt : ℚ) : List ℚ :=
  dateRange (firstCutoff minDt) (lastCutoff maxDt) PREDICT_DAYS

/-- Generic shape of the labeling loop: folding the per-cutoff overwrite over
any list of cutoffs replaces the label of each row whose cutoff occurs in the
list with the per-row value, and leaves the rest at their initial value. -/
lemma labelFold_eq (F : Snap → ℚ → ℕ) (cs : List ℚ) (g : Snap → ℕ) (rows : List Snap) :
    cs.foldl
      (fun acc c => acc.map (fun p => if p.1.cutoff = c then (p.1, F p.1 c) else p))
      (rows.map (fun r => (r, g r)))
    = rows.map (fun r => (r, if r.cutoff ∈ cs then F r r.cutoff else g r)) := by
  induction cs generalizing g with
  | nil => simp
  | cons c cs ih =>
    have hstep :
        (rows.map (fun r => (r, g r))).map
          (fun p => if p.1.cutoff = c then (p.1, F p.1 c) else p)
        = rows.map (fun r => (r, if r.cutoff = c then F r r.cutoff else g r)) := by
      rw [List.map_map]
      refine List.map_congr_left (fun r _ => ?_)
      by_cases h : r.cutoff = c
      · simp [Function.comp, h]
      · simp [Function.comp, h]
    rw [List.foldl_cons, hstep, ih (fun r => if r.cutoff = c then F r r.cutoff else g r)]
    refine List.map_congr_left (fun r _ => ?_)
    by_cases h1 : r.cutoff ∈ cs <;> by_cases h2 : r.cutoff = c <;>
      simp [h1, h2]

/-- The labeling loop's net effect: each row ends with label 1 exactly when
its `future_crashes` is at least its own cutoff-partition's threshold. -/
lemma assignLabels_eq (rows : List Snap) (tf : ℚ) :
    assignLabels rows tf =
      rows.map (fun r =>
        (r, if labelThreshold rows tf r.cutoff ≤ r.future then 1 else 0)) := by
  unfold assignLabels
  rw [labelFold_eq (fun r c => if labelThreshold rows tf c ≤ r.future then 1 else 0)]
  refine List.map_congr_left (fun r hr => ?_)
  have hmem : r.cutoff ∈ uniqueCutoffs rows := by
    simp only [uniqueCutoffs, List.mem_dedup, List.mem_map]
    exact ⟨r, hr, rfl⟩
  simp [hmem]

/-- The partition threshold only reads rows of its own partition. -/
lemma labelThreshold_local (rows1 rows2 : List Snap) (tf c : ℚ)
    (h : rows1.filter (fun r => r.cutoff = c) = rows2.filter (fun r => r.cutoff = c)) :
    labelThreshold rows1 tf c = labelThreshold rows2 tf c := by
  simp [labelThreshold, h]

/-- C2.  Label assignment operates independently within each `cutoff_date`
partition: the loop of `main` (lines 229-235) gives every row label 1
exactly when its `future_crashes` is `>=` its partition's threshold (ties
positive) and 0 otherwise; the threshold is the `1 - top_fraction` linear
quantile of `future_crashes` within that partition alone, so two tables
agreeing on a partition get the same threshold there no matter what the
other partitions contain. -/
theorem label_per_partition (rows rows2 : List Snap) (tf c : ℚ) :
    (assignLabels rows tf =
      rows.map (fun r =>
        (r, if labelThreshold rows tf r.cutoff ≤ r.future then 1 else 0))) ∧
    (labelThreshold rows tf c =
      quantileLinear ((rows.filter (fun r => r.cutoff = c)).map (·.future)) (1 - tf)) ∧
    (rows.filter (fun r => r.cutoff = c) = rows2.filter (fun r => r.cutoff = c) →
      labelThreshold rows tf c = labelThreshold rows2 tf c) :=
  ⟨assignLabels_eq rows tf, rfl, labelThreshold_local rows rows2 tf c⟩

/-- Witness for C2: two one-partition tables agreeing on partition `5`
(and differing elsewhere) get the same threshold at cutoff `5`, and the
loop labels the row as the closed formula says. -/
theorem label_per_partition_witness :
    ([⟨1, 5, 4⟩, ⟨2, 7, 9⟩] : List Snap).filter (fun r => r.cutoff = 5) =
      ([⟨1, 5, 4⟩, ⟨3, 8, 2⟩] : List Snap).filter (fun r => r.cutoff = 5) ∧
    labelThreshold [⟨1, 5, 4⟩, ⟨2, 7, 9⟩] HOTSPOT_TOP_PCT 5 =
      labelThreshold [⟨1, 5, 4⟩, ⟨3, 8, 2⟩] HOTSPOT_TOP_PCT 5 := by
  have h : ([⟨1, 5, 4⟩, ⟨2, 7, 9⟩] : List Snap).filter (fun r => r.cutoff = 5) =
      ([⟨1, 5, 4⟩, ⟨3, 8, 2⟩] : List Snap).filter (fun r => r.cutoff = 5) := by
    norm_num [List.filter]
  exact ⟨h,
    (label_per_partition [⟨1, 5, 4⟩, ⟨2, 7, 9⟩] [⟨1, 5, 4⟩, ⟨3, 8, 2⟩]
      HOTSPOT_TOP_PCT 5).2.2 h⟩

/-- The spec's concrete scenario: one partition (cutoff 100) of 10
intersections with future counts `[0,0,1,1,2,2,3,5,8,10]`. -/
def c7rows : List Snap :=
  [⟨0, 100, 0⟩, ⟨1, 100, 0⟩, ⟨2, 100, 1⟩, ⟨3, 100, 1⟩, ⟨4, 100, 2⟩,
   ⟨5, 100, 2⟩, ⟨6, 100, 3⟩, ⟨7, 100, 5⟩, ⟨8, 100, 8⟩, ⟨9, 100, 10⟩]

/-- A variant of the scenario with a tie at the 70th-percentile boundary:
future counts `[0,0,1,1,2,2,3,3,3,10]`, whose `0.7`-quantile is exactly the
tied value 3. -/
def c7tieRows : List Snap :=
  [⟨0, 100, 0⟩, ⟨1, 100, 0⟩, ⟨2, 100, 1⟩, ⟨3, 100, 1⟩, ⟨4, 100, 2⟩,
   ⟨5, 100, 2⟩, ⟨6, 100, 3⟩, ⟨7, 100, 3⟩, ⟨8, 100, 3⟩, ⟨9, 100, 10⟩]

/-- C7.  On the scenario partition, `top_fraction = 0.10` labels exactly the
single intersection with future count 10 as positive (realized rate 10%);
`top_fraction = 0.30` labels exactly the three highest (rate 30% ≥ 30%); and
in general every row whose future count ties the partition threshold is
labeled positive. -/
theorem concrete_decile_scenario :
    (assignLabels c7rows (1/10) =
      [(⟨0, 100, 0⟩, 0), (⟨1, 100, 0⟩, 0), (⟨2, 100, 1⟩, 0), (⟨3, 100, 1⟩, 0),
       (⟨4, 100, 2⟩, 0), (⟨5, 100, 2⟩, 0), (⟨6, 100, 3⟩, 0), (⟨7, 100, 5⟩, 0),
       (⟨8, 100, 8⟩, 0), (⟨9, 100, 10⟩, 1)]) ∧
    (((assignLabels c7rows (1/10)).countP (fun p => p.2 == 1) : ℚ) / 10 = 1/10) ∧
    (assignLabels c7rows (3/10) =
      [(⟨0, 100, 0⟩, 0), (⟨1, 100, 0⟩, 0), (⟨2, 100, 1⟩, 0), (⟨3, 100, 1⟩, 0),
       (⟨4, 100, 2⟩, 0), (⟨5, 100, 2⟩, 0), (⟨6, 100, 3⟩, 0), (⟨7, 100, 5⟩, 1),
       (⟨8, 100, 8⟩, 1), (⟨9, 100, 10⟩, 1)]) ∧
    (((assignLabels c7rows (3/10)).countP (fun p => p.2 == 1) : ℚ) / 10 ≥ 3/10) ∧
    (∀ (rows : List Snap) (tf : ℚ) (r : Snap) (l : ℕ),
      (r, l) ∈ assignLabels rows tf →
      r.future = labelThreshold rows tf r.cutoff → l = 1) := by
  have h1 : assignLabels c7rows (1/10) =
      [(⟨0, 100, 0⟩, 0), (⟨1, 100, 0⟩, 0), (⟨2, 100, 1⟩, 0), (⟨3, 100, 1⟩, 0),
       (⟨4, 100, 2⟩, 0), (⟨5, 100, 2⟩, 0), (⟨6, 100, 3⟩, 0), (⟨7, 100, 5⟩, 0),
       (⟨8, 100, 8⟩, 0), (⟨9, 100, 10⟩, 1)] := by
    rw [assignLabels_eq]
    norm_num [labelThreshold, c7rows, quantileLinear, List.insertionSort,
      List.orderedInsert, List.filter, Int.toNat]
    norm_num [List.cons_ne_nil]
  have h3 : assignLabels c7rows (3/10) =
      [(⟨0, 100, 0⟩, 0), (⟨1, 100, 0⟩, 0), (⟨2, 100, 1⟩, 0), (⟨3, 100, 1⟩, 0),
       (⟨4, 100, 2⟩, 0), (⟨5, 100, 2⟩, 0), (⟨6, 100, 3⟩, 0), (⟨7, 100, 5⟩, 1),
       (⟨8, 100, 8⟩, 1), (⟨9, 100, 10⟩, 1)] := by
    rw [assignLabels_eq]
    norm_num [labelThreshold, c7rows, quantileLinear, List.insertionSort,
      List.orderedInsert, List.filter, Int.toNat]
    norm_num [List.cons_ne_nil]
  refine ⟨h1, ?_, h3, ?_, ?_⟩
  · have hc : ([(⟨0, 100, 0⟩, 0), (⟨1, 100, 0⟩, 0), (⟨2, 100, 1⟩, 0), (⟨3, 100, 1⟩, 0),
       (⟨4, 100, 2⟩, 0), (⟨5, 100, 2⟩, 0), (⟨6, 100, 3⟩, 0), (⟨7, 100, 5⟩, 0),
       (⟨8, 100, 8⟩, 0), (⟨9, 100, 10⟩, 1)] : List (Snap × ℕ)).countP
        (fun p => p.2 == 1) = 1 := rfl
    rw [h1, hc]; norm_num
  · have hc : ([(⟨0, 100, 0⟩, 0), (⟨1, 100, 0⟩, 0), (⟨2, 100, 1⟩, 0), (⟨3, 100, 1⟩, 0),
       (⟨4, 100, 2⟩, 0), (⟨5, 100, 2⟩, 0), (⟨6, 100, 3⟩, 0), (⟨7, 100, 5⟩, 1),
       (⟨8, 100, 8⟩, 1), (⟨9, 100, 10⟩, 1)] : List (Snap × ℕ)).countP
        (fun p => p.2 == 1) = 3 := rfl
    rw [h3, hc]; norm_num
  · intro rows tf r l hmem hfut
    rw [assignLabels_eq] at hmem
    obtain ⟨r', _, heq⟩ := List.mem_map.1 hmem
    have hr : r' = r := congrArg Prod.fst heq
    subst hr
    have hl : (if labelThreshold rows tf r'.cutoff ≤ r'.future then 1 else 0) = l :=
      congrArg Prod.snd heq
    rw [if_pos (le_of_eq hfut.symm)] at hl
    exact hl.symm

/-- Witness for C7's tie clause: on the tie partition at
`top_fraction = 0.30` the threshold is the tied value 3, the row
`⟨7, 100, 3⟩` sits exactly at it, and it is labeled positive. -/
theorem concrete_decile_scenario_witness :
    ((⟨7, 100, 3⟩ : Snap), 1) ∈ assignLabels c7tieRows (3/10) ∧
    (⟨7, 100, 3⟩ : Snap).future = labelThreshold c7tieRows (3/10) (100 : ℚ) ∧
    (1 : ℕ) = 1 := by
  have hthr : labelThreshold c7tieRows (3/10) (100 : ℚ) = 3 := by
    norm_num [labelThreshold, c7tieRows, quantileLinear, List.insertionSort,
      List.orderedInsert, List.filter, Int.toNat]
  have hmem : ((⟨7, 100, 3⟩ : Snap), 1) ∈ assignLabels c7tieRows (3/10) := by
    rw [assignLabels_eq]
    refine List.mem_map.2 ⟨⟨7, 100, 3⟩, by simp [c7tieRows], ?_⟩
    rw [show labelThreshold c7tieRows (3/10) (⟨7, 100, 3⟩ : Snap).cutoff = 3 from hthr]
    norm_num
  exact ⟨hmem, by rw [hthr], concrete_decile_scenario.2.2.2.2 c7tieRows (3/10)
    ⟨7, 100, 3⟩ 1 hmem (by rw [hthr])⟩

lemma dateRange_pos (s e f : ℚ) (hf : 0 < f) (hse : s ≤ e) :
    dateRange s e f =
      (List.range ((⌊(e - s) / f⌋).toNat + 1)).map (fun i : ℕ => s + f * (i : ℚ)) := by
  simp [dateRange, hf, hse]

lemma dateRange_head (s e f : ℚ) (hf : 0 < f) (hse : s ≤ e) :
    (dateRange s e f).head? = some s := by
  rw [dateRange_pos s e f hf hse, List.range_succ_eq_map]
  simp

lemma dateRange_spacing (s e f : ℚ) (hf : 0 < f) (hse : s ≤ e) (i : ℕ)
    (hi : i + 1 < (dateRange s e f).length) :
    (dateRange s e f).getD (i + 1) 0 - (dateRange s e f).getD i 0 = f := by
  rw [dateRange_pos s e f hf hse] at hi ⊢
  simp only [List.length_map, List.length_range] at hi
  rw [List.getD_eq_getElem?_getD, List.getD_eq_getElem?_getD,
    List.getElem?_map, List.getElem?_map, List.getElem?_range hi,
    List.getElem?_range (Nat.lt_of_succ_lt hi)]
  simp only [Option.map_some', Option.getD_some]
  push_cast
  ring

lemma dateRange_le (s e f : ℚ) (hf : 0 < f) (x : ℚ) (hx : x ∈ dateRange s e f) :
    x ≤ e := by
  by_cases hse : s ≤ e
  · rw [dateRange_pos s e f hf hse] at hx
    obtain ⟨i, hi, rfl⟩ := List.mem_map.1 hx
    rw [List.mem_range] at hi
    have hq : (0 : ℚ) ≤ (e - s) / f := div_nonneg (by linarith) (le_of_lt hf)
    have hfl : (0 : ℤ) ≤ ⌊(e - s) / f⌋ := Int.le_floor.2 (by exact_mod_cast hq)
    have hile : (i : ℚ) ≤ ((⌊(e - s) / f⌋).toNat : ℚ) := by
      exact_mod_cast Nat.le_of_lt_succ hi
    have hcast : ((⌊(e - s) / f⌋).toNat : ℚ) = ((⌊(e - s) / f⌋ : ℤ) : ℚ) := by
      exact_mod_cast congrArg (fun z : ℤ => (z : ℚ)) (Int.toNat_of_nonneg hfl)
    have hfloor : ((⌊(e - s) / f⌋ : ℤ) : ℚ) ≤ (e - s) / f := Int.floor_le _
    have hmono : f * (i : ℚ) ≤ f * ((e - s) / f) := by
      apply mul_le_mul_of_nonneg_left _ (le_of_lt hf)
      calc (i : ℚ) ≤ ((⌊(e - s) / f⌋).toNat : ℚ) := hile
        _ = ((⌊(e - s) / f⌋ : ℤ) : ℚ) := hcast
        _ ≤ (e - s) / f := hfloor
    have hmul : f * ((e - s) / f) = e - s :=
      mul_div_cancel₀ _ (ne_of_gt hf)
    linarith
  · simp [dateRange, hse] at hx

lemma dateRange_exact (s e f : ℚ) (hf : 0 < f) (k : ℕ) (he : e = s + f * k) :
    e ∈ dateRange s e f := by
  have hse : s ≤ e := by
    have : (0 : ℚ) ≤ f * k := mul_nonneg (le_of_lt hf) (by positivity)
    linarith
  rw [dateRange_pos s e f hf hse]
  have hq : (e - s) / f = (k : ℚ) := by
    rw [he]; field_simp
  have htn : (⌊(e - s) / f⌋).toNat = k := by
    rw [hq, Int.floor_natCast]
    exact Int.toNat_natCast k
  rw [htn]
  exact List.mem_map.2 ⟨k, List.mem_range.2 (Nat.lt_succ_self k), he.symm⟩

/-- C4, counterexample.  The claim's precondition
`min_event_time ≤ max_event_time - lookahead_span` does not guarantee a
first cutoff: with `min_dt = 0`, `max_dt = 200` the precondition holds, yet
`first_cutoff = 455 > last_cutoff = 20`, the generated schedule is empty,
and there is no first cutoff equal to `min_dt + history + margin`. -/
theorem schedule_claim_counterexample :
    ((0 : ℚ) ≤ 200 - PREDICT_DAYS) ∧
    cutoffSchedule 0 200 = [] ∧
    (cutoffSchedule 0 200).head? ≠ some (firstCutoff 0) := by
  have hempty : cutoffSchedule 0 200 = [] := by
    rw [cutoffSchedule, dateRange, if_neg]
    rw [firstCutoff, lastCutoff, HISTORY_DAYS, PREDICT_DAYS]
    intro hcon
    have := hcon.2
    norm_num at this
  refine ⟨by norm_num [PREDICT_DAYS], hempty, ?_⟩
  rw [hempty]
  simp

/-- C4, amended.  When additionally
`min_event_time + history_span + start_margin ≤ max_event_time - lookahead_span`
(the schedule is nonempty): the first cutoff is exactly
`min_dt + history + margin`, consecutive cutoffs differ by exactly
`PREDICT_DAYS`, no cutoff exceeds `max_dt - PREDICT_DAYS`, and the bound
itself is generated when the spacing lands exactly on it. -/
theorem schedule_spacing_amended (minDt maxDt : ℚ)
    (h : firstCutoff minDt ≤ lastCutoff maxDt) :
    (cutoffSchedule minDt maxDt).head? = some (firstCutoff minDt) ∧
    (∀ i : ℕ, i + 1 < (cutoffSchedule minDt maxDt).length →
      (cutoffSchedule minDt maxDt).getD (i + 1) 0 -
        (cutoffSchedule minDt maxDt).getD i 0 = PREDICT_DAYS) ∧
    (∀ x ∈ cutoffSchedule minDt maxDt, x ≤ lastCutoff maxDt) ∧
    ((∃ k : ℕ, lastCutoff maxDt = firstCutoff minDt + PREDICT_DAYS * k) →
      lastCutoff maxDt ∈ cutoffSchedule minDt maxDt) := by
  have hf : (0 : ℚ) < PREDICT_DAYS := by norm_num [PREDICT_DAYS]
  exact ⟨dateRange_head _ _ _ hf h,
    fun i hi => dateRange_spacing _ _ _ hf h i hi,
    fun x hx => dateRange_le _ _ _ hf x hx,
    fun ⟨k, hk⟩ => dateRange_exact _ _ _ hf k hk⟩

/-- Witness for C4's amended claim at `min_dt = 0`, `max_dt = 995`:
the schedule starts at 455 and, since `815 = 455 + 180·2`, the last bound
815 is generated exactly. -/
theorem schedule_spacing_amended_witness :
    firstCutoff 0 ≤ lastCutoff 995 ∧
    (cutoffSchedule 0 995).head? = some (firstCutoff 0) ∧
    lastCutoff 995 ∈ cutoffSchedule 0 995 := by
  have h : firstCutoff 0 ≤ lastCutoff 995 := by
    norm_num [firstCutoff, lastCutoff, HISTORY_DAYS, PREDICT_DAYS]
  obtain ⟨h1, _, _, h4⟩ := schedule_spacing_amended 0 995 h
  exact ⟨h, h1, h4 ⟨2, by norm_num [firstCutoff, lastCutoff, HISTORY_DAYS, PREDICT_DAYS]⟩⟩

/-! ### The control flow of `main` (lines 165-243)

`mainRun` models which run-terminating Python exception (if any) `main`
raises and which output files it writes, as a function of which input files
are present on disk and of the loaded data.  File contents are passed as
data parameters; `present` is the set of paths that exist. -/

/-- The Python exceptions that can terminate `main`, plus the spec
taxonomy's `InsufficientDataRangeError`, which no line of the code ever
raises. -/
inductive PyErr where
  /-- `FileNotFoundError` from `pd.read_parquet` on an absent path — the
  realization of the spec taxonomy's `MissingInputError`. -/
  | fileNotFound : String → PyErr
  /-- `IndexError` from `cutoff_dates[0]` on an empty `DatetimeIndex`
  (line 191). -/
  | indexError : PyErr
  /-- pandas failure when the crash table is empty and `min`/`max` are NaT. -/
  | valueError : PyErr
  /-- The spec's `InsufficientDataRangeError`; present in the taxonomy only,
  absent from the code. -/
  | insufficientDataRange : PyErr
deriving DecidableEq, Repr

def crashesPath : String := "data/processed/crashes_with_nodes.parquet"
def peoplePath : String := "data/processed/people_with_nodes.parquet"
def staticPath : String := "data/processed/intersection_features_enriched.parquet"
def outputPath : String := "data/processed/intersection_features_temporal.parquet"

/-- `series.min()` on a nonempty series (`crashes["crash_dt"].min()`,
line 173). -/
def listMin : List ℚ → Option ℚ
  | [] => none
  | x :: xs => some (xs.foldl min x)

/-- `series.max()` (line 174). -/
def listMax : List ℚ → Option ℚ
  | [] => none
  | x :: xs => some (xs.foldl max x)

/-- `pd.concat(all_features, ignore_index=True)` (line 202): the per-cutoff
tables share one schema; their rows are concatenated in order. -/
def concatDF (ts : List DF) : DF :=
  { cols := ((ts.head?).map DF.cols).getD [], rows := (ts.map DF.rows).flatten }

/-- `drop_duplicates(subset=["intersection_id"])` (line 223): keep the first
row of each key, preserving order. -/
def dedupKeysFirst : List (ℕ × List (Option ℚ)) → List (ℕ × List (Option ℚ))
  | [] => []
  | r :: rest => r :: dedupKeysFirst (rest.filter (fun x => x.1 ≠ r.1))
termination_by l => l.length
decreasing_by
  simp only [List.length_cons]
  exact Nat.lt_succ_of_le (List.length_filter_le _ _)

def dedupFirst (df : DF) : DF :=
  { cols := df.cols, rows := dedupKeysFirst df.rows }

/-- The step sequence of `main` (lines 165-243): read the crash and people
tables, compute the data range, generate the cutoff schedule, report it
(`cutoff_dates[0]` — an `IndexError` on an empty schedule), build the
per-cutoff snapshots, concatenate, read the static table, left-merge it,
assign labels, and finally write the single output file.  Returns the
terminating error (if any) and the list of files written before
termination; the only write (`to_parquet`, line 238) is the last step. -/
def mainRun (present : List String) (crashes : List Crash) (people : List Person)
    (static : DF) : Option PyErr × List String :=
  if crashesPath ∈ present then
    if peoplePath ∈ present then
      match listMin (crashes.map (·.t)), listMax (crashes.map (·.t)) with
      | some minDt, some maxDt =>
        let cds := cutoffSchedule minDt maxDt
        match cds.head? with
        | some _ =>
          let allFeatures := cds.map (fun c => build_features_for_cutoff crashes people c)
          let combined := concatDF allFeatures
          if staticPath ∈ present then
            let staticData := dedupFirst static
            let _merged := mergeLeft combined staticData
            (none, [outputPath])
          else (some (PyErr.fileNotFound staticPath), [])
        | none => (some PyErr.indexError, [])
      | _, _ => (some PyErr.valueError, [])
    else (some (PyErr.fileNotFound peoplePath), [])
  else (some (PyErr.fileNotFound crashesPath), [])

/-- Helper: with both event tables present and a data range whose
`first_cutoff` exceeds `last_cutoff`, the schedule is empty and `main` dies
with `IndexError` at the schedule report, having written nothing. -/
lemma mainRun_empty_schedule (present : List String) (crashes : List Crash)
    (people : List Person) (static : DF) (mn mx : ℚ)
    (h1 : crashesPath ∈ present) (h2 : peoplePath ∈ present)
    (hmn : listMin (crashes.map (·.t)) = some mn)
    (hmx : listMax (crashes.map (·.t)) = some mx)
    (hrange : lastCutoff mx < firstCutoff mn) :
    cutoffSchedule mn mx = [] ∧
    mainRun present crashes people static = (some PyErr.indexError, []) := by
  have hempty : cutoffSchedule mn mx = [] := by
    rw [cutoffSchedule, dateRange, if_neg]
    intro hcon
    exact absurd hcon.2 (not_le.2 hrange)
  refine ⟨hempty, ?_⟩
  rw [mainRun, if_pos h1, if_pos h2, hmn, hmx]
  simp [hempty]

/-- C3, counterexample.  With crash timestamps 0 and 300 (so
`first_cutoff = 455 > last_cutoff = 120`) the run fails with `IndexError`
— not with any `InsufficientDataRange` error: no such validation exists; the
schedule generator silently returns an empty schedule and its emptiness
surfaces at the downstream `cutoff_dates[0]` access. -/
theorem insufficient_range_counterexample :
    mainRun [crashesPath, peoplePath, staticPath]
        [⟨0, 1, 0, "FATAL"⟩, ⟨1, 1, 300, "FATAL"⟩] [] ⟨[], []⟩ =
      (some PyErr.indexError, []) ∧
    PyErr.indexError ≠ PyErr.insufficientDataRange := by
  refine ⟨(mainRun_empty_schedule _ _ _ _ 0 300 ?_ ?_ ?_ ?_ ?_).2, by simp⟩
  · simp
  · simp
  · simp [listMin]
  · simp [listMax]
  · norm_num [firstCutoff, lastCutoff, HISTORY_DAYS, PREDICT_DAYS]

/-- C3, amended.  When `first_cutoff > last_cutoff` the schedule generator
raises nothing and produces an empty schedule; the run then fails with an
`IndexError` at the schedule report — before any per-cutoff snapshot build
and before any output is written (the write list is empty). -/
theorem insufficient_range_amended (present : List String) (crashes : List Crash)
    (people : List Person) (static : DF) (mn mx : ℚ)
    (h1 : crashesPath ∈ present) (h2 : peoplePath ∈ present)
    (hmn : listMin (crashes.map (·.t)) = some mn)
    (hmx : listMax (crashes.map (·.t)) = some mx)
    (hrange : lastCutoff mx < firstCutoff mn) :
    cutoffSchedule mn mx = [] ∧
    mainRun present crashes people static = (some PyErr.indexError, []) :=
  mainRun_empty_schedule present crashes people static mn mx h1 h2 hmn hmx hrange

/-- Witness for C3's amended claim. -/
theorem insufficient_range_amended_witness :
    cutoffSchedule 0 300 = [] ∧
    mainRun [crashesPath, peoplePath] [⟨0, 1, 0, "FATAL"⟩, ⟨1, 1, 300, "FATAL"⟩]
        [] ⟨[], []⟩ = (some PyErr.indexError, []) := by
  refine insufficient_range_amended _ _ _ _ 0 300 ?_ ?_ ?_ ?_ ?_
  · simp
  · simp
  · simp [listMin]
  · simp [listMax]
  · norm_num [firstCutoff, lastCutoff, HISTORY_DAYS, PREDICT_DAYS]

/-- C8.  If the static intersection-attributes table is absent when the
temporal feature build runs (and the run reaches that read: the event tables
are present and the schedule is nonempty), `main` fails at
`pd.read_parquet(".../intersection_features_enriched.parquet")` — a
`FileNotFoundError`, the realization of the spec's `MissingInputError` —
and the write list is empty: the output parquet is neither created nor
modified, since the only `to_parquet` call is after this read. -/
theorem missing_static_input (present : List String) (crashes : List Crash)
    (people : List Person) (static : DF) (mn mx c0 : ℚ)
    (h1 : crashesPath ∈ present) (h2 : peoplePath ∈ present)
    (h3 : staticPath ∉ present)
    (hmn : listMin (crashes.map (·.t)) = some mn)
    (hmx : listMax (crashes.map (·.t)) = some mx)
    (hhead : (cutoffSchedule mn mx).head? = some c0) :
    mainRun present crashes people static = (some (PyErr.fileNotFound staticPath), []) := by
  rw [mainRun, if_pos h1, if_pos h2, hmn, hmx]
  simp only [hhead, if_neg h3]

/-- Witness for C8: crash data spanning 0..1000 (nonempty schedule), both
event tables present, static table absent. -/
theorem missing_static_input_witness :
    mainRun [crashesPath, peoplePath] [⟨0, 1, 0, "FATAL"⟩, ⟨1, 1, 1000, "FATAL"⟩]
        [] ⟨[], []⟩ = (some (PyErr.fileNotFound staticPath), []) := by
  refine missing_static_input _ _ _ _ 0 1000 (firstCutoff 0) ?_ ?_ ?_ ?_ ?_ ?_
  · simp
  · simp
  · simp [staticPath, crashesPath, peoplePath]
  · simp [listMin]
  · simp [listMax]
  · exact dateRange_head _ _ _ (by norm_num [PREDICT_DAYS])
      (by norm_num [firstCutoff, lastCutoff, HISTORY_DAYS, PREDICT_DAYS])

/-! ### Structural lemmas about the DataFrame operations (for C6/C10) -/

lemma map_fst_keyed (ks : List ℕ) (f : ℕ → List (Option ℚ)) :
    List.map Prod.fst (ks.map fun k => (k, f k)) = ks := by
  rw [List.map_map]
  exact List.map_id' ks

lemma keys_aggregate_crashes (crashes : List Crash) (s e : ℚ) (k : ℕ) :
    k ∈ (aggregate_crashes crashes s e).keys ↔
      ∃ r ∈ windowSub crashes s e, r.iid = k := by
  simp only [aggregate_crashes, DF.keys]
  rw [map_fst_keyed, (List.perm_insertionSort _ _).mem_iff]
  simp [List.mem_dedup]

lemma keys_aggregate_injuries (people : List Person) (s e : ℚ) (k : ℕ) :
    k ∈ (aggregate_injuries people s e).keys ↔
      ∃ r ∈ windowSubP people s e, r.iid = k := by
  simp only [aggregate_injuries, DF.keys]
  rw [map_fst_keyed, (List.perm_insertionSort _ _).mem_iff]
  simp [List.mem_dedup]

lemma keys_renameCols (df : DF) (m : List (String × String)) :
    (renameCols df m).keys = df.keys := rfl

lemma mem_keys_mergeOuter (a b : DF) (k : ℕ) :
    k ∈ (mergeOuter a b).keys ↔ k ∈ a.keys ∨ k ∈ b.keys := by
  simp only [mergeOuter, DF.keys]
  rw [map_fst_keyed, (List.perm_insertionSort _ _).mem_iff]
  simp [List.mem_dedup]

lemma keys_fillna0 (df : DF) : (fillna0 df).keys = df.keys := by
  simp only [fillna0, DF.keys, List.map_map]
  rfl

lemma keys_addColumn (df : DF) (name : String) (v : ℚ) :
    (addColumn df name v).keys = df.keys := by
  simp only [addColumn, DF.keys, List.map_map]
  rfl

/-- Schema discipline: every row has one cell per column. -/
def DF.WF (df : DF) : Prop := ∀ r ∈ df.rows, r.2.length = df.cols.length

lemma WF_aggregate_crashes (crashes : List Crash) (s e : ℚ) :
    (aggregate_crashes crashes s e).WF := by
  intro r hr
  simp only [aggregate_crashes] at hr
  obtain ⟨k, _, rfl⟩ := List.mem_map.1 hr
  rfl

lemma WF_aggregate_injuries (people : List Person) (s e : ℚ) :
    (aggregate_injuries people s e).WF := by
  intro r hr
  simp only [aggregate_injuries] at hr
  obtain ⟨k, _, rfl⟩ := List.mem_map.1 hr
  rfl

lemma WF_renameCols (df : DF) (m : List (String × String)) (h : df.WF) :
    (renameCols df m).WF := by
  intro r hr
  simp only [renameCols, List.length_map]
  exact h r hr

lemma lookupRow_eq_none (df : DF) (k : ℕ) (h : k ∉ df.keys) :
    lookupRow df k = none := by
  unfold lookupRow
  rw [List.find?_eq_none.2, Option.map_none']
  intro r hr
  simp only [decide_eq_true_eq]
  intro hk
  exact h (hk ▸ List.mem_map.2 ⟨r, hr, rfl⟩)

lemma lookupRow_length (df : DF) (h : df.WF) (k : ℕ) (v : List (Option ℚ))
    (hv : lookupRow df k = some v) : v.length = df.cols.length := by
  unfold lookupRow at hv
  obtain ⟨r, hr, rfl⟩ := Option.map_eq_some'.1 hv
  exact h r (List.mem_of_find?_eq_some hr)

lemma lookupRow_getD_length (df : DF) (h : df.WF) (k : ℕ) :
    ((lookupRow df k).getD (List.replicate df.cols.length none)).length =
      df.cols.length := by
  cases hv : lookupRow df k with
  | none => simp
  | some v => simpa using lookupRow_length df h k v hv

lemma WF_mergeOuter (a b : DF) (ha : a.WF) (hb : b.WF) : (mergeOuter a b).WF := by
  intro r hr
  simp only [mergeOuter] at hr
  obtain ⟨k, _, rfl⟩ := List.mem_map.1 hr
  simp only [mergeOuter, List.length_append]
  rw [lookupRow_getD_length a ha, lookupRow_getD_length b hb]

/-- The cells of any row of an outer merge split into the left side's
lookup (or left-width NaNs) followed by the right side's. -/
lemma mergeOuter_row_shape (a b : DF) (row : ℕ × List (Option ℚ))
    (h : row ∈ (mergeOuter a b).rows) :
    row.2 = (lookupRow a row.1).getD (List.replicate a.cols.length none)
        ++ (lookupRow b row.1).getD (List.replicate b.cols.length none) := by
  simp only [mergeOuter] at h
  obtain ⟨k, _, rfl⟩ := List.mem_map.1 h
  rfl

/-- Every row of `addColumn (fillna0 df) name v` is an original row with its
cells NaN-filled and the constant appended. -/
lemma fill_stamp_row_shape (df : DF) (name : String) (v : ℚ)
    (row : ℕ × List (Option ℚ))
    (h : row ∈ (addColumn (fillna0 df) name v).rows) :
    ∃ r ∈ df.rows,
      row = (r.1, r.2.map (fun x => some (x.getD 0)) ++ [some v]) := by
  simp only [addColumn, fillna0, List.map_map] at h
  obtain ⟨r, hr, rfl⟩ := List.mem_map.1 h
  exact ⟨r, hr, rfl⟩

/-- If a key is absent from the right table of the final outer merge, the
fill step writes 0 into the first right-side cell (position = left width). -/
lemma filled_right_zero (A B : DF) (hA : A.WF) (hBpos : 0 < B.cols.length)
    (name : String) (v : ℚ) (row : ℕ × List (Option ℚ))
    (h : row ∈ (addColumn (fillna0 (mergeOuter A B)) name v).rows)
    (hk : row.1 ∉ B.keys) :
    row.2.getD A.cols.length none = some 0 := by
  obtain ⟨r, hr, heq⟩ := fill_stamp_row_shape _ _ _ row h
  have hshape := mergeOuter_row_shape A B r hr
  have hfst : row.1 = r.1 := by rw [heq]
  rw [lookupRow_eq_none B r.1 (hfst ▸ hk), Option.getD_none] at hshape
  have hlen : ((lookupRow A r.1).getD (List.replicate A.cols.length none)).length =
      A.cols.length := lookupRow_getD_length A hA r.1
  rw [heq]
  simp only
  rw [hshape, List.map_append, List.map_replicate, List.append_assoc,
    List.getD_eq_getElem?_getD,
    List.getElem?_append_right (by rw [List.length_map, hlen]),
    List.length_map, hlen, Nat.sub_self,
    List.getElem?_append_left (by simpa using hBpos),
    List.getElem?_replicate, if_pos hBpos]
  rfl

/-- C6.  For every cutoff, `build_features_for_cutoff`:
produces exactly the columns of the five aggregations — history and recent
on both event tables, future on crashes only, with no injury-future
columns — plus the cutoff stamp; retains via the outer joins every
intersection appearing in at least one of the five windows; leaves no NaN
cell after the single post-merge fill; stamps every row with the cutoff in
the last cell; and gives an intersection absent from the future window a
filled `future_crashes` of 0 (cell at position 12). -/
theorem per_cutoff_feature_build (crashes : List Crash) (people : List Person) (c : ℚ) :
    ((build_features_for_cutoff crashes people c).cols =
      ["hist_crashes", "hist_severity",
       "hist_injuries_total", "hist_injuries_fatal",
       "hist_injuries_incapacitating", "hist_injuries_nonincap",
       "recent90_crashes", "recent90_severity",
       "recent90_injuries_total", "recent90_injuries_fatal",
       "recent90_injuries_incapacitating", "recent90_injuries_nonincap",
       "future_crashes", "future_severity", "cutoff_date"]) ∧
    (∀ k : ℕ, k ∈ (build_features_for_cutoff crashes people c).keys ↔
      ((∃ r ∈ histSub crashes c, r.iid = k) ∨
       (∃ r ∈ windowSubP people (c - HISTORY_DAYS) c, r.iid = k) ∨
       (∃ r ∈ recentSub crashes c, r.iid = k) ∨
       (∃ r ∈ windowSubP people (c - RECENT_DAYS) c, r.iid = k) ∨
       (∃ r ∈ futureSub crashes c, r.iid = k))) ∧
    (∀ row ∈ (build_features_for_cutoff crashes people c).rows,
      ∀ cell ∈ row.2, cell ≠ none) ∧
    (∀ row ∈ (build_features_for_cutoff crashes people c).rows,
      row.2.getLast? = some (some c)) ∧
    (∀ row ∈ (build_features_for_cutoff crashes people c).rows,
      row.1 ∉ (aggregate_crashes crashes c (c + PREDICT_DAYS)).keys →
      row.2.getD 12 none = some 0) := by
  refine ⟨rfl, ?_, ?_, ?_, ?_⟩
  · intro k
    simp only [build_features_for_cutoff, keys_addColumn, keys_fillna0,
      mem_keys_mergeOuter, keys_renameCols, keys_aggregate_crashes,
      keys_aggregate_injuries, histSub, recentSub, futureSub]
    constructor
    · rintro ((((h | h) | h) | h) | h)
      · exact Or.inl h
      · exact Or.inr (Or.inl h)
      · exact Or.inr (Or.inr (Or.inl h))
      · exact Or.inr (Or.inr (Or.inr (Or.inl h)))
      · exact Or.inr (Or.inr (Or.inr (Or.inr h)))
    · rintro (h | h | h | h | h)
      · exact Or.inl (Or.inl (Or.inl (Or.inl h)))
      · exact Or.inl (Or.inl (Or.inl (Or.inr h)))
      · exact Or.inl (Or.inl (Or.inr h))
      · exact Or.inl (Or.inr h)
      · exact Or.inr h
  · intro row hrow cell hcell
    simp only [build_features_for_cutoff] at hrow
    obtain ⟨r, _, heq⟩ := fill_stamp_row_shape _ _ _ row hrow
    rw [heq] at hcell
    simp only at hcell
    rcases List.mem_append.1 hcell with hc | hc
    · obtain ⟨x, _, rfl⟩ := List.mem_map.1 hc
      simp
    · simp only [List.mem_singleton] at hc
      subst hc
      simp
  · intro row hrow
    simp only [build_features_for_cutoff] at hrow
    obtain ⟨r, _, heq⟩ := fill_stamp_row_shape _ _ _ row hrow
    rw [heq]
    simp only
    exact List.getLast?_concat _
  · intro row hrow hk
    simp only [build_features_for_cutoff] at hrow
    refine filled_right_zero _ _ ?_ (by simp [renameCols, aggregate_crashes]) _ _ row hrow hk
    exact WF_mergeOuter _ _
      (WF_mergeOuter _ _
        (WF_mergeOuter _ _
          (WF_renameCols _ _ (WF_aggregate_crashes _ _ _))
          (WF_renameCols _ _ (WF_aggregate_injuries _ _ _)))
        (WF_renameCols _ _ (WF_aggregate_crashes _ _ _)))
      (WF_renameCols _ _ (WF_aggregate_injuries _ _ _))

/-- Witness for C6: one crash at intersection 3, day 10, cutoff 20.  The
intersection appears only in the backward windows; its row is retained,
fully filled, has `future_crashes = 0` at position 12, and ends with the
cutoff stamp. -/
theorem per_cutoff_feature_build_witness :
    (((3, [some 1, some 5, some 0, some 0, some 0, some 0, some 1, some 5,
      some 0, some 0, some 0, some 0, some 0, some 0, some 20]) :
        ℕ × List (Option ℚ)) ∈
      (build_features_for_cutoff [⟨0, 3, 10, "FATAL"⟩] [] 20).rows) ∧
    ((3 : ℕ) ∉ (aggregate_crashes [⟨0, 3, 10, "FATAL"⟩] 20 (20 + PREDICT_DAYS)).keys) ∧
    (([some 1, some 5, some 0, some 0, some 0, some 0, some 1, some 5,
      some 0, some 0, some 0, some 0, some 0, some 0, some 20] :
        List (Option ℚ)).getD 12 none = some 0) ∧
    (([some 1, some 5, some 0, some 0, some 0, some 0, some 1, some 5,
      some 0, some 0, some 0, some 0, some 0, some 0, some 20] :
        List (Option ℚ)).getLast? = some (some 20)) := by
  have hrow : ((3, [some 1, some 5, some 0, some 0, some 0, some 0, some 1, some 5,
      some 0, some 0, some 0, some 0, some 0, some 0, some 20]) :
        ℕ × List (Option ℚ)) ∈
      (build_features_for_cutoff [⟨0, 3, 10, "FATAL"⟩] [] 20).rows := by
    norm_num [build_features_for_cutoff, aggregate_crashes, aggregate_injuries,
      renameCols, mergeOuter, fillna0, addColumn, windowSub, windowSubP,
      severityWt, SEVERITY_WEIGHTS, lookupRow, DF.keys,
      List.insertionSort, List.orderedInsert, List.filter, List.dedup,
      List.find?, List.replicate, List.lookup, List.pwFilter,
      HISTORY_DAYS, RECENT_DAYS, PREDICT_DAYS]
  have hk : (3 : ℕ) ∉
      (aggregate_crashes [⟨0, 3, 10, "FATAL"⟩] 20 (20 + PREDICT_DAYS)).keys := by
    norm_num [aggregate_crashes, DF.keys, windowSub, List.filter, PREDICT_DAYS]
  exact ⟨hrow, hk,
    (per_cutoff_feature_build [⟨0, 3, 10, "FATAL"⟩] [] 20).2.2.2.2 _ hrow hk,
    (per_cutoff_feature_build [⟨0, 3, 10, "FATAL"⟩] [] 20).2.2.2.1 _ hrow⟩

lemma mem_of_mem_dedupKeysFirst (x : ℕ × List (Option ℚ)) :
    ∀ (n : ℕ) (l : List (ℕ × List (Option ℚ))), l.length ≤ n →
      x ∈ dedupKeysFirst l → x ∈ l := by
  intro n
  induction n with
  | zero =>
    intro l hl hx
    cases l with
    | nil => simp [dedupKeysFirst] at hx
    | cons r rest => simp at hl
  | succ n ih =>
    intro l hl hx
    cases l with
    | nil => simp [dedupKeysFirst] at hx
    | cons r rest =>
      rw [dedupKeysFirst] at hx
      rcases List.mem_cons.1 hx with h | h
      · exact h ▸ List.mem_cons_self r rest
      · have hrec := ih (rest.filter (fun y => y.1 ≠ r.1))
          (le_trans (List.length_filter_le _ _)
            (Nat.le_of_succ_le_succ (by simpa using hl))) h
        exact List.mem_cons_of_mem _ (List.mem_of_mem_filter hrec)

lemma nodup_keys_dedupKeysFirst :
    ∀ (n : ℕ) (l : List (ℕ × List (Option ℚ))), l.length ≤ n →
      ((dedupKeysFirst l).map Prod.fst).Nodup := by
  intro n
  induction n with
  | zero =>
    intro l hl
    cases l with
    | nil => simp [dedupKeysFirst]
    | cons r rest => simp at hl
  | succ n ih =>
    intro l hl
    cases l with
    | nil => simp [dedupKeysFirst]
    | cons r rest =>
      rw [dedupKeysFirst]
      rw [List.map_cons, List.nodup_cons]
      constructor
      · intro hmem
        obtain ⟨y, hy, hyk⟩ := List.mem_map.1 hmem
        have hyfil := mem_of_mem_dedupKeysFirst y _ _ (le_refl _) hy
        have := List.of_mem_filter hyfil
        simp only [decide_eq_true_eq] at this
        exact this hyk
      · exact ih (rest.filter (fun y => y.1 ≠ r.1))
          (le_trans (List.length_filter_le _ _)
            (Nat.le_of_succ_le_succ (by simpa using hl)))

lemma lookupRow_isSome_of_mem (df : DF) (k : ℕ) (h : k ∈ df.keys) :
    ∃ v, lookupRow df k = some v := by
  obtain ⟨r, hr, hk⟩ := List.mem_map.1 h
  have hsome : (df.rows.find? (fun r => r.1 = k)).isSome :=
    List.find?_isSome.2 ⟨r, hr, by simp [hk]⟩
  obtain ⟨r', hr'⟩ := Option.isSome_iff_exists.1 hsome
  exact ⟨r'.2, by simp [lookupRow, hr']⟩

/-- C10.  The static merge of `main` (lines 204-225): the static table is
first deduplicated to one row per intersection (keys become unique), and the
left-join preserves the row count, key order, and every pre-existing cell of
the combined table (so the zero-filled window columns stay intact); the
appended static cells are exactly the deduplicated static row's cells when
the intersection is present there and all-NaN otherwise, so any NaN in the
merged table lies in a newly added static column, for an intersection absent
from the static table or a cell already NaN in the static table itself. -/
theorem static_merge_frame (combined static : DF) :
    ((mergeLeft combined (dedupFirst static)).cols =
      combined.cols ++ static.cols) ∧
    ((dedupFirst static).keys.Nodup) ∧
    ((mergeLeft combined (dedupFirst static)).rows.length = combined.rows.length) ∧
    ((mergeLeft combined (dedupFirst static)).keys = combined.keys) ∧
    List.Forall₂ (fun r r' : ℕ × List (Option ℚ) =>
      r'.1 = r.1 ∧
      r'.2.take r.2.length = r.2 ∧
      (∀ v, lookupRow (dedupFirst static) r.1 = some v →
        r'.2.drop r.2.length = v) ∧
      (lookupRow (dedupFirst static) r.1 = none →
        r'.2.drop r.2.length = List.replicate static.cols.length none) ∧
      (∀ cell ∈ r'.2.drop r.2.length, cell = none →
        r.1 ∉ (dedupFirst static).keys ∨
        ∃ v, lookupRow (dedupFirst static) r.1 = some v ∧ none ∈ v))
      combined.rows (mergeLeft combined (dedupFirst static)).rows := by
  refine ⟨rfl, nodup_keys_dedupKeysFirst static.rows.length static.rows (le_refl _),
    by simp [mergeLeft], ?_, ?_⟩
  · simp only [mergeLeft, DF.keys, List.map_map]
    rfl
  · simp only [mergeLeft]
    rw [List.forall₂_map_right_iff]
    refine List.forall₂_same.2 (fun r _ => ?_)
    refine ⟨rfl, List.take_left _ _, ?_, ?_, ?_⟩
    · intro v hv
      simp only [hv, Option.getD_some]
      exact List.drop_left _ _
    · intro hv
      simp only [hv, Option.getD_none]
      exact List.drop_left _ _
    · intro cell hcell hnone
      cases hlk : lookupRow (dedupFirst static) r.1 with
      | none =>
        refine Or.inl (fun hmem => ?_)
        obtain ⟨v, hv⟩ := lookupRow_isSome_of_mem _ _ hmem
        rw [hlk] at hv
        exact Option.noConfusion hv
      | some v =>
        refine Or.inr ⟨v, rfl, ?_⟩
        rw [List.drop_left] at hcell
        rw [hlk, Option.getD_some] at hcell
        exact hnone ▸ hcell

/-- Witness for C10: a one-row combined table whose intersection 2 is absent
from a static table that has a duplicated intersection 1.  Dedup keeps one
row per key, the merge preserves the combined row, and the introduced NaN is
attributable to intersection 2's absence from the static table. -/
theorem static_merge_frame_witness :
    ((dedupFirst ⟨["acs_pop"], [(1, [some 7]), (1, [some 9])]⟩).keys.Nodup) ∧
    ((mergeLeft ⟨["hist_crashes"], [(2, [some 3])]⟩
        (dedupFirst ⟨["acs_pop"], [(1, [some 7]), (1, [some 9])]⟩)).keys =
      (DF.mk ["hist_crashes"] [(2, [some 3])]).keys) ∧
    ((2 : ℕ) ∉ (dedupFirst ⟨["acs_pop"], [(1, [some 7]), (1, [some 9])]⟩).keys ∨
      ∃ v, lookupRow (dedupFirst ⟨["acs_pop"], [(1, [some 7]), (1, [some 9])]⟩) 2 =
        some v ∧ none ∈ v) := by
  obtain ⟨_, hnd, _, hkeys, hfa⟩ :=
    static_merge_frame ⟨["hist_crashes"], [(2, [some 3])]⟩
      ⟨["acs_pop"], [(1, [some 7]), (1, [some 9])]⟩
  have hdedup : dedupFirst ⟨["acs_pop"], [(1, [some 7]), (1, [some 9])]⟩ =
      (⟨["acs_pop"], [(1, [some 7])]⟩ : DF) := by
    rw [dedupFirst]
    norm_num [dedupKeysFirst, List.filter]
  have hrows : (mergeLeft ⟨["hist_crashes"], [(2, [some 3])]⟩
      (dedupFirst ⟨["acs_pop"], [(1, [some 7]), (1, [some 9])]⟩)).rows =
      [(2, [some 3, none])] := by
    rw [hdedup]
    norm_num [mergeLeft, lookupRow, List.find?]
  rw [hrows] at hfa
  cases hfa with
  | cons hP _ =>
    exact ⟨hnd, hkeys, hP.2.2.2.2 none (by simp) rfl⟩

/-! ### Partition independence (C5) -/

/-- A timestamp lies in the history, recent, or future window of cutoff
`c`. -/
def inAnyWindow (c t : ℚ) : Bool :=
  decide ((c - HISTORY_DAYS ≤ t ∧ t < c) ∨ (c - RECENT_DAYS ≤ t ∧ t < c) ∨
    (c ≤ t ∧ t < c + PREDICT_DAYS))

/-- Filtering by a finer predicate factors through a coarser one, so two
lists agreeing on the coarse filter agree on the fine one. -/
lemma filter_sub_eq {α : Type} (p q : α → Bool) (l1 l2 : List α)
    (himp : ∀ x, p x = true → q x = true)
    (h : l1.filter q = l2.filter q) : l1.filter p = l2.filter p := by
  have key : ∀ l : List α, l.filter p = (l.filter q).filter p := by
    intro l
    rw [List.filter_filter]
    refine List.filter_congr (fun x _ => ?_)
    cases hp : p x
    · simp
    · simp [himp x hp]
  rw [key l1, key l2, h]

lemma aggregate_crashes_congr (c1 c2 : List Crash) (s e : ℚ)
    (h : windowSub c1 s e = windowSub c2 s e) :
    aggregate_crashes c1 s e = aggregate_crashes c2 s e := by
  simp only [aggregate_crashes, h]

lemma aggregate_injuries_congr (p1 p2 : List Person) (s e : ℚ)
    (h : windowSubP p1 s e = windowSubP p2 s e) :
    aggregate_injuries p1 s e = aggregate_injuries p2 s e := by
  simp only [aggregate_injuries, h]

/-- The `future_crashes` column of a per-cutoff snapshot (position 12, see
C6), with the fill already applied. -/
def futureColumn (df : DF) : List ℚ :=
  df.rows.map (fun r => ((r.2.getD 12 none).getD 0))

/-- The labeling threshold a snapshot table induces:
`quantile(future_crashes, 1 - top_fraction)` over its rows. -/
def snapshotThreshold (df : DF) (tf : ℚ) : ℚ :=
  quantileLinear (futureColumn df) (1 - tf)

/-- C5.  Two-run partition independence.  Window aggregation is a pure
function of the events selected by its window, and if two crash/people
tables agree on every event timestamped inside the history, recent, or
future window of cutoff `c`, then the whole per-cutoff snapshot, the
threshold it induces, and (at the combined-table level) the partition's
label threshold are identical, however the tables differ outside those
windows. -/
theorem partition_independence (crashes1 crashes2 : List Crash)
    (people1 people2 : List Person) (c tf : ℚ) (rows1 rows2 : List Snap)
    (hc : crashes1.filter (fun r => inAnyWindow c r.t) =
      crashes2.filter (fun r => inAnyWindow c r.t))
    (hp : people1.filter (fun r => inAnyWindow c r.t) =
      people2.filter (fun r => inAnyWindow c r.t)) :
    (∀ s e : ℚ, windowSub crashes1 s e = windowSub crashes2 s e →
      aggregate_crashes crashes1 s e = aggregate_crashes crashes2 s e) ∧
    build_features_for_cutoff crashes1 people1 c =
      build_features_for_cutoff crashes2 people2 c ∧
    snapshotThreshold (build_features_for_cutoff crashes1 people1 c) tf =
      snapshotThreshold (build_features_for_cutoff crashes2 people2 c) tf ∧
    (rows1.filter (fun r => r.cutoff = c) = rows2.filter (fun r => r.cutoff = c) →
      labelThreshold rows1 tf c = labelThreshold rows2 tf c) := by
  have hhist : windowSub crashes1 (c - HISTORY_DAYS) c =
      windowSub crashes2 (c - HISTORY_DAYS) c := by
    refine filter_sub_eq _ _ _ _ (fun x hx => ?_) hc
    simp only [decide_eq_true_eq] at hx
    simp only [inAnyWindow, decide_eq_true_eq]
    exact Or.inl hx
  have hrecent : windowSub crashes1 (c - RECENT_DAYS) c =
      windowSub crashes2 (c - RECENT_DAYS) c := by
    refine filter_sub_eq _ _ _ _ (fun x hx => ?_) hc
    simp only [decide_eq_true_eq] at hx
    simp only [inAnyWindow, decide_eq_true_eq]
    exact Or.inr (Or.inl hx)
  have hfuture : windowSub crashes1 c (c + PREDICT_DAYS) =
      windowSub crashes2 c (c + PREDICT_DAYS) := by
    refine filter_sub_eq _ _ _ _ (fun x hx => ?_) hc
    simp only [decide_eq_true_eq] at hx
    simp only [inAnyWindow, decide_eq_true_eq]
    exact Or.inr (Or.inr hx)
  have hphist : windowSubP people1 (c - HISTORY_DAYS) c =
      windowSubP people2 (c - HISTORY_DAYS) c := by
    refine filter_sub_eq _ _ _ _ (fun x hx => ?_) hp
    simp only [decide_eq_true_eq] at hx
    simp only [inAnyWindow, decide_eq_true_eq]
    exact Or.inl hx
  have hprecent : windowSubP people1 (c - RECENT_DAYS) c =
      windowSubP people2 (c - RECENT_DAYS) c := by
    refine filter_sub_eq _ _ _ _ (fun x hx => ?_) hp
    simp only [decide_eq_true_eq] at hx
    simp only [inAnyWindow, decide_eq_true_eq]
    exact Or.inr (Or.inl hx)
  have hbuild : build_features_for_cutoff crashes1 people1 c =
      build_features_for_cutoff crashes2 people2 c := by
    simp only [build_features_for_cutoff]
    rw [aggregate_crashes_congr _ _ _ _ hhist,
      aggregate_crashes_congr _ _ _ _ hrecent,
      aggregate_crashes_congr _ _ _ _ hfuture,
      aggregate_injuries_congr _ _ _ _ hphist,
      aggregate_injuries_congr _ _ _ _ hprecent]
  exact ⟨fun s e h => aggregate_crashes_congr _ _ _ _ h, hbuild,
    by rw [hbuild], labelThreshold_local rows1 rows2 tf c⟩

/-- Witness for C5: two crash tables sharing the in-window crash at day 400
(cutoff 400) but holding different out-of-window crashes produce identical
snapshots. -/
theorem partition_independence_witness :
    ([⟨0, 1, 400, "FATAL"⟩, ⟨1, 2, 1000, "FATAL"⟩] : List Crash).filter
        (fun r => inAnyWindow 400 r.t) =
      ([⟨0, 1, 400, "FATAL"⟩, ⟨2, 5, 2000, "FATAL"⟩] : List Crash).filter
        (fun r => inAnyWindow 400 r.t) ∧
    build_features_for_cutoff [⟨0, 1, 400, "FATAL"⟩, ⟨1, 2, 1000, "FATAL"⟩] [] 400 =
      build_features_for_cutoff [⟨0, 1, 400, "FATAL"⟩, ⟨2, 5, 2000, "FATAL"⟩] [] 400 := by
  have hc : ([⟨0, 1, 400, "FATAL"⟩, ⟨1, 2, 1000, "FATAL"⟩] : List Crash).filter
        (fun r => inAnyWindow 400 r.t) =
      ([⟨0, 1, 400, "FATAL"⟩, ⟨2, 5, 2000, "FATAL"⟩] : List Crash).filter
        (fun r => inAnyWindow 400 r.t) := by
    norm_num [inAnyWindow, List.filter, HISTORY_DAYS, RECENT_DAYS, PREDICT_DAYS]
  exact ⟨hc,
    (partition_independence _ _ [] [] 400 HOTSPOT_TOP_PCT [] [] hc rfl).2.1⟩

/-! ### The Temporal-Integrity Checker (`scripts/check_temporal_leakage.py`)

The checker's observable behavior is a pure function of which feature files
exist (and their column lists) and of the modeling notebooks' code text;
`World` carries exactly those inputs.  Python's `"pat" in s` substring test
and `s.lower()` / `s.startswith(p)` are modelled on character lists. -/

def listStartsWith : List Char → List Char → Bool
  | _, [] => true
  | [], _ :: _ => false
  | a :: as, b :: bs => a = b && listStartsWith as bs

def listHasSub : List Char → List Char → Bool
  | [], pat => pat.isEmpty
  | a :: t, pat => listStartsWith (a :: t) pat || listHasSub t pat

/-- Python `pat in hay`. -/
def strHasSub (hay pat : String) : Bool := listHasSub hay.toList pat.toList

/-- Python `"future" in col.lower()` (lines 66, 87). -/
def colHasFuture (c : String) : Bool :=
  listHasSub (c.toList.map Char.toLower) "future".toList

/-- Python `col.startswith("future_")` (line 203). -/
def strStarts (s pre : String) : Bool := listStartsWith s.toList pre.toList

/-- The checker's inputs: column lists of the three feature files when they
exist on disk, the `cutoff_date` column values of the temporal table
(empty exactly when that table has zero rows), and the code text of each
modeling notebook. -/
structure World where
  nonTemporalCols : Option (List String)
  enrichedCols : Option (List String)
  temporalCols : Option (List String)
  temporalCutoffs : List ℚ
  notebookCodes : List String
deriving DecidableEq, Repr

/-- `check_non_temporal_features` (lines 47-102): `has_issue` is set exactly
when `intersection_features.parquet` exists and holds a future-named column
(lines 66-72); the enriched file's future columns only produce warnings.
No row data is touched, so this check cannot crash. -/
def check_non_temporal_features (w : World) : Bool :=
  match w.nonTemporalCols with
  | some cols => !(cols.filter colHasFuture).isEmpty
  | none => false

/-- `check_temporal_features` (lines 105-172): a missing temporal file is a
warning (early return `False`).  With the file present, a missing
`cutoff_date` sets `has_issue` (line 130) and the row-dependent branch is
skipped; with `cutoff_date` present, the date-range report
`sorted(feats["cutoff_date"].unique())[0]` (lines 139-140) raises an
uncaught `IndexError` when the table has zero rows; otherwise the check
completes and `has_issue` also covers a missing `future_crashes`
(line 144).  A missing label column and suspicious names are warnings
only. -/
def check_temporal_features (w : World) : Except PyErr Bool :=
  match w.temporalCols with
  | none => .ok false
  | some cols =>
    if !cols.contains "cutoff_date" then .ok true
    else
      match w.temporalCutoffs with
      | [] => .error PyErr.indexError
      | _ :: _ => .ok (!cols.contains "future_crashes")

/-- `label_cols` of `check_feature_time_windows` (line 213). -/
def label_cols : List String := ["future_crashes", "future_severity", "label_hotspot"]

/-- `check_feature_time_windows` (lines 175-225): `has_issue` for a missing
`cutoff_date` (line 193) or for any `future_`-prefixed column that is not a
label column (lines 211-221); only column names are read, so no crash. -/
def check_feature_time_windows (w : World) : Bool :=
  match w.temporalCols with
  | none => false
  | some cols =>
    if !cols.contains "cutoff_date" then true
    else
      (cols.filter (fun c => strStarts c "future_")).any
        (fun c => !label_cols.contains c)

/-- `leakage_indicators` (lines 252-257). -/
def leakage_indicators : List String :=
  ["future_crashes", "future_severity", "intersection_features.parquet",
   "train_test_split"]

/-- `scan_notebooks_for_leakage` (lines 228-300): per notebook, the found
indicators; `has_issue` only when `"future_" in str(found_indicators)`,
i.e. some found indicator contains `future_` (lines 282-288); other found
terms are warnings.  Per-notebook work is wrapped in try/except
(lines 262-298), so this check cannot crash. -/
def scan_notebooks_for_leakage (w : World) : Bool :=
  w.notebookCodes.any (fun code =>
    let found := leakage_indicators.filter (fun ind => strHasSub code ind)
    !found.isEmpty && found.any (fun ind => strHasSub ind "future_"))

/-- `main` (lines 341-387): runs the four checks in order, assembles the
structured report, and exits 1 exactly when any check reported an issue
(`sys.exit(1)`, line 382), 0 otherwise.  The uncaught `IndexError` of
check 2 propagates and kills the process before any report or summary is
produced. -/
def checkerRun (w : World) : Except PyErr ((Bool × Bool × Bool × Bool) × ℕ) :=
  let issue1 := check_non_temporal_features w
  match check_temporal_features w with
  | .error e => .error e
  | .ok issue2 =>
    let issue3 := check_feature_time_windows w
    let issue4 := scan_notebooks_for_leakage w
    .ok ((issue1, issue2, issue3, issue4),
      if issue1 || issue2 || issue3 || issue4 then 1 else 0)

/-- The zero-row crash path of check 2: the temporal table exists with a
`cutoff_date` column but holds no rows. -/
def checkerCrash (w : World) : Prop :=
  ∃ cols, w.temporalCols = some cols ∧ "cutoff_date" ∈ cols ∧
    w.temporalCutoffs = []

/-- Modelled from the spec: a "structural error" in the spec's
classification is a missing required column — for the temporal feature
table, `cutoff_date` or `future_crashes`; every other finding (suspicious
name, rate, notebook text) is a "risk warning". -/
def specStructuralError (w : World) : Bool :=
  match w.temporalCols with
  | none => false
  | some cols => (!cols.contains "cutoff_date") || (!cols.contains "future_crashes")

/-- The findings the code classifies as errors (printed with `print_error`
and flipping `has_issue`), written declaratively. -/
def codeErrorFinding (w : World) : Prop :=
  (∃ cols, w.nonTemporalCols = some cols ∧ ∃ c ∈ cols, colHasFuture c = true) ∨
  (∃ cols, w.temporalCols = some cols ∧
    ("cutoff_date" ∉ cols ∨ "future_crashes" ∉ cols)) ∨
  (∃ cols, w.temporalCols = some cols ∧ "cutoff_date" ∈ cols ∧
    ∃ c ∈ cols, strStarts c "future_" = true ∧ c ∉ label_cols) ∨
  (∃ code ∈ w.notebookCodes, ∃ ind ∈ leakage_indicators,
    strHasSub code ind = true ∧ strHasSub ind "future_" = true)

lemma check1_iff (w : World) :
    check_non_temporal_features w = true ↔
      (∃ cols, w.nonTemporalCols = some cols ∧ ∃ c ∈ cols, colHasFuture c = true) := by
  rcases w with ⟨nt, en, tc, tcf, nb⟩
  cases nt with
  | none => simp [check_non_temporal_features]
  | some cols =>
    simp [check_non_temporal_features, Bool.not_eq_true',
      List.isEmpty_eq_false_iff_exists_mem, List.mem_filter]

lemma check2_error_iff (w : World) :
    check_temporal_features w = Except.error PyErr.indexError ↔ checkerCrash w := by
  rcases w with ⟨nt, en, tc, tcf, nb⟩
  cases tc with
  | none => simp [check_temporal_features, checkerCrash]
  | some cols =>
    by_cases hcut : "cutoff_date" ∈ cols
    · cases tcf with
      | nil => simp [check_temporal_features, checkerCrash, hcut]
      | cons c0 rest => simp [check_temporal_features, checkerCrash, hcut]
    · simp [check_temporal_features, checkerCrash, hcut]

lemma check2_error_shape (w : World) (e : PyErr)
    (h : check_temporal_features w = Except.error e) : e = PyErr.indexError := by
  rcases w with ⟨nt, en, tc, tcf, nb⟩
  cases tc with
  | none => simp [check_temporal_features] at h
  | some cols =>
    by_cases hcut : "cutoff_date" ∈ cols
    · cases tcf with
      | nil =>
        simp [check_temporal_features, hcut] at h
        exact h.symm
      | cons c0 rest => simp [check_temporal_features, hcut] at h
    · simp [check_temporal_features, hcut] at h

lemma check2_ok_iff (w : World) (b : Bool)
    (h : check_temporal_features w = Except.ok b) :
    b = true ↔
      (∃ cols, w.temporalCols = some cols ∧
        ("cutoff_date" ∉ cols ∨ "future_crashes" ∉ cols)) := by
  rcases w with ⟨nt, en, tc, tcf, nb⟩
  cases tc with
  | none =>
    simp only [check_temporal_features, Except.ok.injEq] at h
    simp [← h]
  | some cols =>
    by_cases hcut : "cutoff_date" ∈ cols
    · cases tcf with
      | nil => simp [check_temporal_features, hcut] at h
      | cons c0 rest =>
        simp only [check_temporal_features] at h
        rw [if_neg (by simp [hcut]), Except.ok.injEq] at h
        subst h
        simp [hcut]
    · simp only [check_temporal_features] at h
      rw [if_pos (by simp [hcut]), Except.ok.injEq] at h
      subst h
      simp [hcut]

lemma check3_iff (w : World) :
    check_feature_time_windows w = true ↔
      (∃ cols, w.temporalCols = some cols ∧
        ("cutoff_date" ∉ cols ∨
          ∃ c ∈ cols, strStarts c "future_" = true ∧ c ∉ label_cols)) := by
  rcases w with ⟨nt, en, tc, tcf, nb⟩
  cases tc with
  | none => simp [check_feature_time_windows]
  | some cols =>
    by_cases hcut : "cutoff_date" ∈ cols
    · simp [check_feature_time_windows, hcut, List.any_eq_true, List.mem_filter]
    · simp [check_feature_time_windows, hcut]

lemma check4_iff (w : World) :
    scan_notebooks_for_leakage w = true ↔
      (∃ code ∈ w.notebookCodes, ∃ ind ∈ leakage_indicators,
        strHasSub code ind = true ∧ strHasSub ind "future_" = true) := by
  rcases w with ⟨nt, en, tc, tcf, nb⟩
  simp only [scan_notebooks_for_leakage, List.any_eq_true]
  constructor
  · rintro ⟨code, hcode, hfound⟩
    simp only [Bool.and_eq_true, Bool.not_eq_true',
      List.isEmpty_eq_false_iff_exists_mem, List.any_eq_true, List.mem_filter] at hfound
    obtain ⟨_, ind, ⟨hind, hsub⟩, hfut⟩ := hfound
    exact ⟨code, hcode, ind, hind, hsub, hfut⟩
  · rintro ⟨code, hcode, ind, hind, hsub, hfut⟩
    refine ⟨code, hcode, ?_⟩
    simp only [Bool.and_eq_true, Bool.not_eq_true',
      List.isEmpty_eq_false_iff_exists_mem, List.any_eq_true, List.mem_filter]
    exact ⟨⟨ind, hind, hsub⟩, ind, ⟨hind, hsub⟩, hfut⟩

/-- C9, counterexample.  Two failures of the claim.  First, a world whose
temporal table has every required column (no structural error) but whose
non-temporal `intersection_features` file contains `future_crashes` — a
name-based leakage-risk finding — completes and exits 1, so the exit status
is not "non-zero iff a structural error was found".  Second, a temporal
table with the `cutoff_date` column but zero rows kills the checker with an
uncaught `IndexError` (line 140) before any report, so the checker does not
always complete its checks. -/
theorem checker_exit_counterexample :
    checkerRun ⟨some ["intersection_id", "future_crashes"], none,
      some ["intersection_id", "cutoff_date", "future_crashes", "label_hotspot",
        "hist_crashes"], [100], []⟩ =
      Except.ok ((true, false, false, false), 1) ∧
    specStructuralError ⟨some ["intersection_id", "future_crashes"], none,
      some ["intersection_id", "cutoff_date", "future_crashes", "label_hotspot",
        "hist_crashes"], [100], []⟩ = false ∧
    checkerRun ⟨none, none, some ["cutoff_date", "future_crashes"], [], []⟩ =
      Except.error PyErr.indexError :=
  ⟨rfl, rfl, rfl⟩

/-- C9, amended.  The checker crashes with an uncaught `IndexError` (no
report produced) exactly when the temporal table has a `cutoff_date` column
but zero rows; on every other input it completes all four checks and
returns a structured report with exit status 0 or 1, where the exit status
is 1 exactly when some finding the code classifies as an error exists: a
future-named column in the non-temporal features file, a required column
(`cutoff_date`, `future_crashes`) missing from the temporal table, a
non-label `future_`-prefixed column, or a modeling notebook containing a
`future_` indicator.  On completed runs, structural errors (missing
required columns) always produce exit 1, while warn-only findings (missing
files, missing label column, suspicious temporal feature names, non-future
notebook terms) leave exit 0. -/
theorem checker_exit_amended (w : World) :
    (checkerRun w = Except.error PyErr.indexError ↔ checkerCrash w) ∧
    (¬ checkerCrash w →
      ∃ rep : (Bool × Bool × Bool × Bool) × ℕ,
        checkerRun w = Except.ok rep ∧
        (rep.2 = 0 ∨ rep.2 = 1) ∧
        (rep.2 = 1 ↔ codeErrorFinding w) ∧
        (specStructuralError w = true → rep.2 = 1)) := by
  have hstructiff : specStructuralError w = true ↔
      (∃ cols, w.temporalCols = some cols ∧
        ("cutoff_date" ∉ cols ∨ "future_crashes" ∉ cols)) := by
    rcases w with ⟨nt, en, tc, tcf, nb⟩
    cases tc with
    | none => simp [specStructuralError]
    | some cols => simp [specStructuralError]
  constructor
  · cases hc : check_temporal_features w with
    | error e =>
      have he := check2_error_shape w e hc
      subst he
      simp only [checkerRun, hc]
      exact ⟨fun _ => (check2_error_iff w).1 hc, fun _ => trivial⟩
    | ok b =>
      simp only [checkerRun, hc]
      constructor
      · intro hcon
        exact absurd hcon (by simp)
      · intro hcrash
        rw [(check2_error_iff w).2 hcrash] at hc
        exact absurd hc (by simp)
  · intro hncrash
    cases hc : check_temporal_features w with
    | error e =>
      have he := check2_error_shape w e hc
      subst he
      exact absurd ((check2_error_iff w).1 hc) hncrash
    | ok b =>
      have hiff : (check_non_temporal_features w || b ||
          check_feature_time_windows w || scan_notebooks_for_leakage w) = true ↔
          codeErrorFinding w := by
        rw [Bool.or_eq_true, Bool.or_eq_true, Bool.or_eq_true,
          check1_iff, check2_ok_iff w b hc, check3_iff, check4_iff, codeErrorFinding]
        constructor
        · rintro (((h | h) | ⟨cols, hcols, h3 | h3⟩) | h)
          · exact Or.inl h
          · exact Or.inr (Or.inl h)
          · exact Or.inr (Or.inl ⟨cols, hcols, Or.inl h3⟩)
          · obtain ⟨c, hcc, hstart, hnot⟩ := h3
            by_cases hcut : "cutoff_date" ∈ cols
            · exact Or.inr (Or.inr (Or.inl ⟨cols, hcols, hcut, c, hcc, hstart, hnot⟩))
            · exact Or.inr (Or.inl ⟨cols, hcols, Or.inl hcut⟩)
          · exact Or.inr (Or.inr (Or.inr h))
        · rintro (h | h | ⟨cols, hcols, hcut, h3⟩ | h)
          · exact Or.inl (Or.inl (Or.inl h))
          · exact Or.inl (Or.inl (Or.inr h))
          · exact Or.inl (Or.inr ⟨cols, hcols, Or.inr h3⟩)
          · exact Or.inr h
      refine ⟨((check_non_temporal_features w, b, check_feature_time_windows w,
          scan_notebooks_for_leakage w),
        if check_non_temporal_features w || b || check_feature_time_windows w ||
            scan_notebooks_for_leakage w then 1 else 0),
        by simp only [checkerRun, hc], ?_, ?_, ?_⟩
      · by_cases h : (check_non_temporal_features w || b ||
            check_feature_time_windows w || scan_notebooks_for_leakage w) = true
        · exact Or.inr (by simp [h])
        · exact Or.inl (by simp [h])
      · by_cases h : (check_non_temporal_features w || b ||
            check_feature_time_windows w || scan_notebooks_for_leakage w) = true
        · simp only [if_pos h]
          exact ⟨fun _ => hiff.1 h, fun _ => trivial⟩
        · simp only [if_neg h]
          constructor
          · intro h01
            exact absurd h01 (by norm_num)
          · intro hcode
            exact absurd (hiff.2 hcode) h
      · intro hstruct
        have hb : b = true :=
          (check2_ok_iff w b hc).2 (hstructiff.1 hstruct)
        simp [hb]

/-- Witness for C9's amended claim: a temporal table missing both required
columns (structural error, no crash since the `cutoff_date` branch is never
entered) completes with exit 1; and a zero-row table with `cutoff_date`
crashes with the `IndexError`. -/
theorem checker_exit_amended_witness :
    ¬ checkerCrash ⟨none, none, some ["intersection_id"], [], []⟩ ∧
    specStructuralError ⟨none, none, some ["intersection_id"], [], []⟩ = true ∧
    (∃ rep : (Bool × Bool × Bool × Bool) × ℕ,
      checkerRun ⟨none, none, some ["intersection_id"], [], []⟩ = Except.ok rep ∧
      rep.2 = 1) ∧
    checkerCrash ⟨none, none, some ["cutoff_date"], [], []⟩ ∧
    checkerRun ⟨none, none, some ["cutoff_date"], [], []⟩ =
      Except.error PyErr.indexError := by
  have hnc : ¬ checkerCrash ⟨none, none, some ["intersection_id"], [], []⟩ := by
    rintro ⟨cols, hcols, hmem, -⟩
    rw [Option.some.injEq] at hcols
    subst hcols
    revert hmem
    decide
  have hcrash : checkerCrash ⟨none, none, some ["cutoff_date"], [], []⟩ :=
    ⟨["cutoff_date"], rfl, by decide, rfl⟩
  obtain ⟨rep, hrep, h01, hiff, hstr⟩ :=
    (checker_exit_amended ⟨none, none, some ["intersection_id"], [], []⟩).2 hnc
  exact ⟨hnc, by decide, ⟨rep, hrep, hstr (by decide)⟩, hcrash,
    (checker_exit_amended ⟨none, none, some ["cutoff_date"], [], []⟩).1.2 hcrash⟩

end CrashTemporal
